import Mathlib

/-
  Verification of the color-picker core in src/src/core/mixin.js.

  The mixin's color engine is embedded shallowly: its pure helpers become Lean
  functions on ℚ (JavaScript numbers are modelled as exact rationals, which is
  faithful for the integer and small-decimal arithmetic the component performs),
  its strings become List Char, and its event handlers become explicit state
  transformers.  The external color-arithmetic library (tinycolor) is out of
  the repository; it is modelled from the spec's description of the trusted
  primitive, using the standard hex/rgb/hsv formulas at the interface the spec
  fixes (toHexString, toRgb, toHsv, hsv-string parsing).
-/

namespace Viron

/-- The COLOR_CODE enumeration of mixin.js (HEX / RGBA / HSV). -/
inductive Format where
  | HEX
  | RGBA
  | HSV
deriving DecidableEq, Repr

/-- An rgba component object as produced by tinycolor's toRgb and consumed by
the RGBA handlers: integer-valued channels r,g,b on 0..255 and alpha on 0..1
(held as exact rationals). -/
structure RgbaObj where
  r : ℚ
  g : ℚ
  b : ℚ
  a : ℚ
deriving DecidableEq, Repr

/-- The value carried by a color: a string (HEX format), an rgba object (RGBA
format) or an hsv triple (the intermediate HSV form). -/
inductive ColorValue where
  | str (s : List Char)
  | rgba (o : RgbaObj)
  | hsv (h s v : ℚ)
deriving DecidableEq, Repr

/-- A color as passed around by the component: a format tag plus its value. -/
structure Color where
  format : Format
  value : ColorValue
deriving DecidableEq, Repr

/-- An HSV triple (h in degrees, s and v on the scale of the context of use). -/
structure Hsv where
  h : ℚ
  s : ℚ
  v : ℚ
deriving DecidableEq, Repr

/-- The selectablecolorcode option object: one flag per format key. -/
structure SelectableColorCode where
  hex : Bool
  rgba : Bool
  hsv : Bool
deriving DecidableEq, Repr

/-- Object lookup selectableColorCode[format]. -/
def SelectableColorCode.get (s : SelectableColorCode) : Format → Bool
  | .HEX => s.hex
  | .RGBA => s.rgba
  | .HSV => s.hsv

/-- Object write selectableColorCode[format] = b. -/
def SelectableColorCode.set (s : SelectableColorCode) (f : Format) (b : Bool) : SelectableColorCode :=
  match f with
  | .HEX => { s with hex := b }
  | .RGBA => { s with rgba := b }
  | .HSV => { s with hsv := b }

/-- The bounding client rect of the canvas container. -/
structure Rect where
  left : ℚ
  top : ℚ
  width : ℚ
  height : ℚ
deriving DecidableEq, Repr

/-- JavaScript Math.round: round half toward positive infinity (integer result). -/
def jroundZ (x : ℚ) : ℤ := ⌊x + 1/2⌋

/-- Math.round as a rational-valued function (the rounded integer, cast back). -/
def jroundQ (x : ℚ) : ℚ := (jroundZ x : ℚ)

/-- Decides whether a character is a hexadecimal digit (0-9, A-F, a-f),
as in the character classes of the two regexes of mixin.js. -/
def isHexDigit (c : Char) : Bool :=
  ('0' ≤ c && c ≤ '9') || ('A' ≤ c && c ≤ 'F') || ('a' ≤ c && c ≤ 'f')

/-- Drops a single leading sharp sign, mirroring the optional leading # of the
regexes in mixin.js. -/
def stripSharp : List Char → List Char
  | [] => []
  | c :: r => if c = '#' then r else c :: r

/-- isHex of mixin.js: the value matches an optional # followed by exactly 3 or
6 hex digits. -/
def isHex (s : List Char) : Bool :=
  let r := stripSharp s
  (decide (r.length = 3) || decide (r.length = 6)) && r.all isHexDigit

/-- isTypingHex of mixin.js: the laxer mid-keystroke pattern, an optional #
followed by 0 to 6 hex digits. -/
def isTypingHex (s : List Char) : Bool :=
  let r := stripSharp s
  decide (r.length ≤ 6) && r.all isHexDigit

/-- concatenatePoundKey of mixin.js: put a # in front when the value does not
already start with one. -/
def concatenatePoundKey (s : List Char) : List Char :=
  match s with
  | [] => ['#']
  | c :: r => if c = '#' then c :: r else '#' :: c :: r

/-- The value.replace step of normalizeHexValue: every full-width space
(U+3000) is replaced by an ordinary ASCII space. -/
def replaceFullWidthSpace (s : List Char) : List Char :=
  s.map (fun c => if c = '　' then ' ' else c)

/-- normalizeHexValue of mixin.js, modelled on string inputs (the isNull and
isUndefined guards of the source are the identity on strings).  prev is
this.opts.color.value, the committed value the edit is reverted to. -/
def normalizeHexValue (prev : List Char) (value : List Char) : List Char :=
  let v1 := replaceFullWidthSpace value
  let v2 := if isHex v1 then concatenatePoundKey v1 else v1
  if isTypingHex v2 then v2 else prev

/-- Modelled from the spec: the trusted color-arithmetic primitive (the
tinycolor library), which is external to this repository.  A parsed color:
channels r,g,b held on the 0..255 scale and an alpha on 0..1, all exact
rationals. -/
structure TColor where
  r : ℚ
  g : ℚ
  b : ℚ
  a : ℚ
deriving DecidableEq, Repr

/-- JavaScript Math.max on two numbers. -/
def qmax (a b : ℚ) : ℚ := if a ≤ b then b else a

/-- JavaScript Math.min on two numbers. -/
def qmin (a b : ℚ) : ℚ := if a ≤ b then a else b

/-- Modelled from the spec: tinycolor's bound01 on plain numeric input — clamp
to [0, mx], snap values within 1e-6 of mx to the top, and normalize to 0..1. -/
def bound01 (n mx : ℚ) : ℚ :=
  let n1 := qmin mx (qmax 0 n)
  if mx - n1 < 1/1000000 then 1 else n1 / mx

/-- Modelled from the spec: tinycolor's bound01 on percentage input (the form
reaching it from the template string of convertColor): clamp, truncate the
value times mx to an integer, divide by 100, then normalize to 0..1. -/
def boundPercent (n mx : ℚ) : ℚ :=
  let n1 := qmin mx (qmax 0 n)
  let n2 := (⌊n1 * mx⌋ : ℚ) / 100
  if mx - n2 < 1/1000000 then 1 else n2 / mx

/-- Modelled from the spec: tinycolor's alpha bound — anything outside [0,1]
becomes 1. -/
def boundAlpha (a : ℚ) : ℚ :=
  if a < 0 || 1 < a then 1 else a

/-- Numeric value of one hex digit character (0 for a non-digit; callers guard
with isHexDigit). -/
def hexVal (c : Char) : Nat :=
  match c with
  | '0' => 0 | '1' => 1 | '2' => 2 | '3' => 3 | '4' => 4
  | '5' => 5 | '6' => 6 | '7' => 7 | '8' => 8 | '9' => 9
  | 'a' => 10 | 'b' => 11 | 'c' => 12 | 'd' => 13 | 'e' => 14 | 'f' => 15
  | 'A' => 10 | 'B' => 11 | 'C' => 12 | 'D' => 13 | 'E' => 14 | 'F' => 15
  | _ => 0

/-- Lowercase hex digit character for a value 0..15. -/
def hexDigitChar (n : Nat) : Char :=
  match n with
  | 0 => '0' | 1 => '1' | 2 => '2' | 3 => '3' | 4 => '4'
  | 5 => '5' | 6 => '6' | 7 => '7' | 8 => '8' | 9 => '9'
  | 10 => 'a' | 11 => 'b' | 12 => 'c' | 13 => 'd' | 14 => 'e'
  | _ => 'f'

/-- Two lowercase hex digit characters for an integer 0..255 (tinycolor's
padded per-channel output). -/
def byteToHex (n : ℤ) : List Char :=
  let m := n.toNat
  [hexDigitChar (m / 16 % 16), hexDigitChar (m % 16)]

/-- Modelled from the spec: tinycolor's string parse restricted to the hex
forms that reach it from this component — a 3- or 6-digit hex code with an
optional leading #.  Anything else is an invalid color, which tinycolor
treats as black. -/
def tinyFromHexString (s : List Char) : TColor :=
  let r := stripSharp s
  if r.all isHexDigit then
    match r with
    | [a, b, c] =>
      ⟨(17 * hexVal a : ℚ), (17 * hexVal b : ℚ), (17 * hexVal c : ℚ), 1⟩
    | [d1, d2, d3, d4, d5, d6] =>
      ⟨(16 * hexVal d1 + hexVal d2 : ℚ), (16 * hexVal d3 + hexVal d4 : ℚ),
       (16 * hexVal d5 + hexVal d6 : ℚ), 1⟩
    | _ => ⟨0, 0, 0, 1⟩
  else ⟨0, 0, 0, 1⟩

/-- The branch table of tinycolor's hsvToRgb: given the sector index i mod 6,
pick the (r, g, b) components among v, q, p, t. -/
def hsvSelect (md : Nat) (v q p t : ℚ) : ℚ × ℚ × ℚ :=
  match md with
  | 0 => (v, t, p)
  | 1 => (q, v, p)
  | 2 => (p, v, t)
  | 3 => (p, q, v)
  | 4 => (t, p, v)
  | _ => (v, p, q)

/-- Modelled from the spec: tinycolor's hsvToRgb, as it is reached from the
hsv(h, s%, v%) template string of convertColor — h is a plain number bound to
[0,360], s and v are percentages bound to [0,100]. -/
def hsvToRgb (h s v : ℚ) : TColor :=
  let h6 := bound01 h 360 * 6
  let s1 := boundPercent s 100
  let v1 := boundPercent v 100
  let i : ℤ := ⌊h6⌋
  let f := h6 - (i : ℚ)
  let p := v1 * (1 - s1)
  let q := v1 * (1 - f * s1)
  let t := v1 * (1 - (1 - f) * s1)
  let rgb := hsvSelect (i % 6).toNat v1 q p t
  ⟨rgb.1 * 255, rgb.2.1 * 255, rgb.2.2 * 255, 1⟩

/-- Modelled from the spec: tinycolor's rgbToHsv as exposed by toHsv — h in
degrees 0..360, s and v as fractions 0..1. -/
def rgbToHsv (c : TColor) : Hsv :=
  let r := bound01 c.r 255
  let g := bound01 c.g 255
  let b := bound01 c.b 255
  let mx := qmax r (qmax g b)
  let mn := qmin r (qmin g b)
  let v := mx
  let d := mx - mn
  let s := if mx = 0 then 0 else d / mx
  let h :=
    if mx = mn then 0
    else
      (if mx = r then (g - b) / d + (if g < b then 6 else 0)
       else if mx = g then (b - r) / d + 2
       else (r - g) / d + 4) / 6
  ⟨h * 360, s, v⟩

/-- Modelled from the spec: tinycolor's toHexString — a lowercase canonical
6-digit string with leading #, channels rounded to integers. -/
def toHexString (c : TColor) : List Char :=
  '#' :: (byteToHex (jroundZ c.r) ++ byteToHex (jroundZ c.g) ++ byteToHex (jroundZ c.b))

/-- Modelled from the spec: tinycolor's toRgb — integer r,g,b in 0..255 plus
the alpha. -/
def toRgbObj (c : TColor) : RgbaObj :=
  ⟨jroundQ c.r, jroundQ c.g, jroundQ c.b, c.a⟩

/-- Modelled from the spec: the tinycolor constructor on the non-string inputs
the component feeds it (rgba objects in the generic branch; the other shapes
are unreachable from the component and get the nearest tinycolor behavior). -/
def tinyFromValue : ColorValue → TColor
  | .str s => tinyFromHexString s
  | .rgba o => ⟨bound01 o.r 255 * 255, bound01 o.g 255 * 255, bound01 o.b 255 * 255, boundAlpha o.a⟩
  | .hsv h s v => hsvToRgb h s v

/-- The tinycolor object built by the first half of convertColor in mixin.js:
a HEX source is parsed only when isHex accepts it and otherwise replaced by
lastValidColor; an HSV source goes through the hsv(h, s%, v%) template; any
other source is handed to tinycolor as-is. -/
def colorObjOf (lastValidColor : List Char) (colorCode : Format) (colorValue : ColorValue) : TColor :=
  match colorCode, colorValue with
  | .HEX, .str s => if isHex s then tinyFromHexString s else tinyFromHexString lastValidColor
  | .HEX, v => tinyFromValue v
  | .HSV, .hsv h s v => hsvToRgb h s v
  | .HSV, v => tinyFromValue v
  | .RGBA, v => tinyFromValue v

/-- convertColor of mixin.js: build the tinycolor object from the source, then
export it in the requested format. -/
def convertColor (lastValidColor : List Char) (colorCode : Format) (colorValue : ColorValue)
    (exportColorcode : Format) : ColorValue :=
  let colorObj := colorObjOf lastValidColor colorCode colorValue
  match exportColorcode with
  | .HEX => .str (toHexString colorObj)
  | .RGBA => .rgba (toRgbObj colorObj)
  | .HSV =>
    let t := rgbToHsv colorObj
    .hsv t.h t.s t.v

/-- isMonochrome of mixin.js: convert to HSV and test saturation equal zero. -/
def isMonochrome (lastValidColor : List Char) (format : Format) (value : ColorValue) : Bool :=
  match convertColor lastValidColor format value .HSV with
  | .hsv _ s _ => decide (s = 0)
  | _ => false

/-- getHsv of mixin.js: an explicit opts.hsv override is returned verbatim;
otherwise the current color is converted to HSV and rounded — h with
Math.round, s and v as Math.round(x * 100) / 100 * 100. -/
def getHsv (optsHsv : Option Hsv) (lastValidColor : List Char) (c : Color) : Hsv :=
  match optsHsv with
  | some o => o
  | none =>
    let hsv :=
      match convertColor lastValidColor c.format c.value .HSV with
      | .hsv h s v => (⟨h, s, v⟩ : Hsv)
      | _ => ⟨0, 0, 0⟩
    ⟨jroundQ hsv.h, jroundQ (hsv.s * 100) / 100 * 100, jroundQ (hsv.v * 100) / 100 * 100⟩

/-- The horizontal clamp chain of getColorObject in mixin.js: round the
pointer offset, cap at rect.width, then lift negatives to 0. -/
def effectiveX (touchX left width : ℚ) : ℚ :=
  let x0 := jroundQ (touchX - left)
  let x1 := if x0 > width then width else x0
  if x1 < 0 then 0 else x1

/-- The vertical clamp chain of getColorObject in mixin.js: round the pointer
offset, cap at rect.height, then replace negatives by 0.1 (the source writes
.1, not 0, on the lower side). -/
def effectiveY (touchY top height : ℚ) : ℚ :=
  let y0 := jroundQ (touchY - top)
  let y1 := if y0 > height then height else y0
  if y1 < 0 then 1/10 else y1

/-- getColorObject of mixin.js: saturation from the x ratio, brightness as 100
minus the y ratio, hue taken from the current getHsv().h (passed in here). -/
def getColorObject (hsvH : ℚ) (touchX touchY : ℚ) (rect : Rect) : Hsv :=
  ⟨hsvH,
   jroundQ (effectiveX touchX rect.left rect.width / rect.width * 100),
   100 - jroundQ (effectiveY touchY rect.top rect.height / rect.height * 100)⟩

/-- getAlphaValue of mixin.js: alpha times 100 for an RGBA color (BigNumber
arithmetic is exact, as is ℚ), 100 for every other format.  The RGBA case with
a non-object value is unreachable in the component. -/
def getAlphaValue (c : Color) : ℚ :=
  match c.format, c.value with
  | .RGBA, .rgba o => o.a * 100
  | .RGBA, _ => 0
  | _, _ => 100

/-- The default selectablecolorcode used when the host supplies none:
both committed formats enabled (an absent HSV key reads as false). -/
def defaultSelectable : SelectableColorCode := ⟨true, true, false⟩

/-- The default color used when the host supplies none: HEX with an empty
value. -/
def defaultColor : Color := ⟨.HEX, .str []⟩

/-- The component's mutable color state: the selectable-format set, the
current color and the last valid hex string. -/
structure MixState where
  sel : SelectableColorCode
  color : Color
  lastValidColor : List Char
deriving DecidableEq, Repr

/-- The initialization block of mixin.js: default the options, then make the
current color's format selectable when it is not. -/
def initColorState (optsSel : Option SelectableColorCode) (optsColor : Option Color) :
    SelectableColorCode × Color :=
  let sel := optsSel.getD defaultSelectable
  let color := optsColor.getD defaultColor
  (if sel.get color.format then sel else sel.set color.format true, color)

/-- The on('update') handler of mixin.js: re-read both options from the host,
remember the value as lastValidColor when it is a valid HEX — and nothing
else (in particular no selectable-format widening). -/
def onUpdate (optsSel : Option SelectableColorCode) (optsColor : Option Color)
    (st : MixState) : MixState :=
  let sel := optsSel.getD defaultSelectable
  let color := optsColor.getD defaultColor
  let lvc :=
    match color.format, color.value with
    | .HEX, .str s => if isHex s then s else st.lastValidColor
    | _, _ => st.lastValidColor
  ⟨sel, color, lvc⟩

/-- The fixed priority order of handleColorChangeButtonTap. -/
def order : List Format := [.HEX, .RGBA]

/-- Array.prototype.indexOf on a format list: index of the first occurrence,
-1 when absent. -/
def indexOfFormat : List Format → Format → ℤ
  | [], _ => -1
  | x :: xs, f =>
    if x = f then 0
    else
      let r := indexOfFormat xs f
      if r = -1 then -1 else r + 1

/-- The do/while search of handleColorChangeButtonTap: step the index forward
with wraparound, stop at the first selectable format.  The fuel argument makes
the possibly-diverging JavaScript loop a total function; none means the loop
would still be running after fuel steps. -/
def cycleSearch (sel : SelectableColorCode) : Nat → Nat → Option Nat
  | 0, _ => none
  | fuel + 1, idx =>
    let idx2 := if idx ≠ order.length - 1 then idx + 1 else 0
    if sel.get (order.getD idx2 .HEX) then some idx2 else cycleSearch sel fuel idx2

/-- handleColorChangeButtonTap of mixin.js: emit the default HEX color when
the current format is not in the order list, otherwise cycle to the next
selectable format and convert the current value into it. -/
def handleColorChangeButtonTap (fuel : Nat) (lastValidColor : List Char)
    (sel : SelectableColorCode) (cur : Color) : Option Color :=
  let i := indexOfFormat order cur.format
  if i = -1 then some ⟨.HEX, .str []⟩
  else
    match cycleSearch sel fuel i.toNat with
    | none => none
    | some j =>
      let f := order.getD j .HEX
      some ⟨f, convertColor lastValidColor cur.format cur.value f⟩

/-- handleAlphaSliderChange of mixin.js.  The source aliases the stored color
(const color = this.color) and mutates it: when the format is not RGBA it
first assigns color.format = RGBA — so the subsequent convertColor call
already sees RGBA as the source format — and replaces color.value by the
conversion; then it writes color.value.a.  The returned pair is
(stored color after the handler, color passed to oncolorchange); they are the
same mutated object. -/
def handleAlphaSliderChange (lastValidColor : List Char) (st : Color) (alpha : ℚ) :
    Color × Color :=
  let color :=
    if st.format ≠ .RGBA then
      (⟨.RGBA, convertColor lastValidColor .RGBA st.value .RGBA⟩ : Color)
    else st
  let color : Color :=
    ⟨color.format,
     match color.value with
     | .rgba o => .rgba { o with a := alpha / 100 }
     | v => v⟩
  (color, color)

/-- handleInputRgbaRedInput of mixin.js.  The source wraps the current format
and value in a fresh object but then objectAssign-mutates the shared value
object with the new r (value || 0 defaults an empty input to 0).  Returned
pair as above: (stored color after the handler, emitted color). -/
def handleInputRgbaRedInput (st : Color) (value : Option ℚ) : Color × Color :=
  let colorValue := value.getD 0
  let newVal :=
    match st.value with
    | .rgba o => ColorValue.rgba { o with r := colorValue }
    | v => v
  (⟨st.format, newVal⟩, ⟨st.format, newVal⟩)

/-- handleHueSliderChange of mixin.js: convert the current color to HSV,
overwrite h with the slider value, rescale s and v to integer percents, and
convert back.  The first component of the result is latestValidHue after the
handler — the source never writes it here, so it is passed through. -/
def handleHueSliderChange (lastValidColor : List Char) (st : Color)
    (latestValidHue : ℚ) (hue : ℚ) : ℚ × Color × Hsv :=
  let hsv0 :=
    match convertColor lastValidColor st.format st.value .HSV with
    | .hsv h s v => (⟨h, s, v⟩ : Hsv)
    | _ => ⟨0, 0, 0⟩
  let hsv : Hsv := ⟨hue, jroundQ (hsv0.s * 100), jroundQ (hsv0.v * 100)⟩
  let colorValue := convertColor lastValidColor .HSV (.hsv hsv.h hsv.s hsv.v) st.format
  (latestValidHue, ⟨st.format, colorValue⟩, hsv)

/-- handleCatcherMouseMove of mixin.js: a no-op while the catcher is inactive;
otherwise compute the pointer color, convert it into the current format, and
record its hue into latestValidHue only when the converted color is not
monochrome.  Result: (latestValidHue after the handler, the emitted
(color, hsv) pair when one is emitted). -/
def handleCatcherMouseMove (lastValidColor : List Char) (st : Color) (latestValidHue : ℚ)
    (isCatcherActive : Bool) (optsHsv : Option Hsv) (pageX pageY : ℚ) (rect : Rect) :
    ℚ × Option (Color × Hsv) :=
  if !isCatcherActive then (latestValidHue, none)
  else
    let hsv := getColorObject (getHsv optsHsv lastValidColor st).h pageX pageY rect
    let value := convertColor lastValidColor .HSV (.hsv hsv.h hsv.s hsv.v) st.format
    let newHue := if isMonochrome lastValidColor st.format value then latestValidHue else hsv.h
    (newHue, some (⟨st.format, value⟩, hsv))

/-- Written from the spec's words for the refinement comparison of claim C5:
s (a 0..1 fraction from the converter) rounded to the nearest 1/100 of a
percent, expressed on the 0..100 scale. -/
def specRoundPercent (frac : ℚ) : ℚ := (⌊frac * 100 * 100 + 1/2⌋ : ℚ) / 100

/-- The hex string #000000, the initial lastValidColor. -/
def hexBlack : List Char := ['#', '0', '0', '0', '0', '0', '0']

/-- The hex string #ff0000. -/
def hexRed : List Char := ['#', 'f', 'f', '0', '0', '0', '0']

/-- The hex string #ff8080, a color whose saturation percent is not an
integer (12700/255). -/
def hexPink : List Char := ['#', 'f', 'f', '8', '0', '8', '0']

/-- The hex string #00ff00. -/
def hexGreen : List Char := ['#', '0', '0', 'f', 'f', '0', '0']

/-- The hex string #123456. -/
def hexSample : List Char := ['#', '1', '2', '3', '4', '5', '6']

theorem selectable_get_set (s : SelectableColorCode) (f : Format) (b : Bool) :
    (s.set f b).get f = b := by
  cases f <;> rfl

/-- C1 counterexample: on an update cycle the host supplies a HEX color
together with selectableFormats lacking HEX; the handler keeps the supplied
set unchanged, so the resulting set does not contain the current format —
refuting the claim that every external color update widens the set. -/
theorem C1_counterexample :
    ((onUpdate (some ⟨false, true, false⟩) (some ⟨.HEX, .str hexRed⟩)
        ⟨defaultSelectable, defaultColor, hexBlack⟩).color).format = .HEX
    ∧ ((onUpdate (some ⟨false, true, false⟩) (some ⟨.HEX, .str hexRed⟩)
        ⟨defaultSelectable, defaultColor, hexBlack⟩).sel).get .HEX = false := by
  decide

/-- C1 (amended): the widening of selectableFormats to include the current
color's format happens only in the initialization block; the on-update handler
replaces selectableFormats by the host-supplied set (or the default) without
widening. -/
theorem C1_amended :
    (∀ (oS : Option SelectableColorCode) (oC : Option Color),
        ((initColorState oS oC).1).get ((initColorState oS oC).2).format = true)
    ∧ (∀ (oS : Option SelectableColorCode) (oC : Option Color) (st : MixState),
        (onUpdate oS oC st).sel = oS.getD defaultSelectable) := by
  constructor
  · intro oS oC
    simp only [initColorState]
    by_cases h : (oS.getD defaultSelectable).get (oC.getD defaultColor).format
    · simp [h]
    · simp [h, selectable_get_set]
  · intro oS oC st
    rfl

/-- C10: the alpha-percentage accessor returns exactly 100 whenever the
current format is not RGBA, and the stored alpha times 100 when it is. -/
theorem C10_theorem :
    (∀ c : Color, c.format ≠ .RGBA → getAlphaValue c = 100)
    ∧ (∀ o : RgbaObj, getAlphaValue ⟨.RGBA, .rgba o⟩ = o.a * 100) := by
  constructor
  · rintro ⟨f, v⟩ h
    cases f <;> cases v <;> simp_all [getAlphaValue]
  · intro o
    rfl

theorem C10_witness :
    getAlphaValue ⟨.HEX, .str hexRed⟩ = 100 ∧ getAlphaValue ⟨.RGBA, .rgba ⟨255, 0, 0, 1/4⟩⟩ = 25 := by
  constructor
  · exact C10_theorem.1 ⟨.HEX, .str hexRed⟩ (by decide)
  · rw [C10_theorem.2 ⟨255, 0, 0, 1/4⟩]
    norm_num

/-- C7: a HEX-source conversion whose source string fails the 3-or-6-digit hex
pattern substitutes lastValidColor as the effective source, giving exactly the
conversion of lastValidColor; and every conversion totally produces a value of
the requested target shape (no exception path exists). -/
theorem C7_theorem :
    (∀ (lvc v : List Char) (tgt : Format), isHex v = false →
        convertColor lvc .HEX (.str v) tgt = convertColor lvc .HEX (.str lvc) tgt)
    ∧ (∀ (lvc : List Char) (fmt : Format) (val : ColorValue),
        (∃ s, convertColor lvc fmt val .HEX = .str s)
        ∧ (∃ o, convertColor lvc fmt val .RGBA = .rgba o)
        ∧ (∃ h s v, convertColor lvc fmt val .HSV = .hsv h s v)) := by
  constructor
  · intro lvc v tgt h
    have hobj : colorObjOf lvc .HEX (.str v) = colorObjOf lvc .HEX (.str lvc) := by
      simp only [colorObjOf, h]
      by_cases h2 : isHex lvc <;> simp [h2]
    simp only [convertColor, hobj]
  · intro lvc fmt val
    exact ⟨⟨_, rfl⟩, ⟨_, rfl⟩, _, _, _, rfl⟩

theorem C7_witness :
    convertColor hexBlack .HEX (.str ['z', 'z']) .HEX
      = convertColor hexBlack .HEX (.str hexBlack) .HEX :=
  C7_theorem.1 hexBlack ['z', 'z'] .HEX (by decide)

/-- C6 counterexample: the alpha-slider handler mutates the stored current
color in place — starting from HEX #ff0000 with alpha 50, the stored color
after the handler is the RGBA object with a = 1/2, not the pre-event value;
likewise the red text-input handler overwrites r on the stored value object. -/
theorem C6_counterexample :
    (handleAlphaSliderChange hexBlack ⟨.HEX, .str hexRed⟩ 50).1 ≠ ⟨.HEX, .str hexRed⟩
    ∧ (handleAlphaSliderChange hexBlack ⟨.HEX, .str hexRed⟩ 50).1
        = ⟨.RGBA, .rgba ⟨255, 0, 0, 1/2⟩⟩
    ∧ (handleInputRgbaRedInput ⟨.RGBA, .rgba ⟨1, 2, 3, 1⟩⟩ (some 9)).1
        = ⟨.RGBA, .rgba ⟨9, 2, 3, 1⟩⟩
    ∧ (⟨.RGBA, .rgba ⟨9, 2, 3, 1⟩⟩ : Color) ≠ ⟨.RGBA, .rgba ⟨1, 2, 3, 1⟩⟩ := by
  have hA : (handleAlphaSliderChange hexBlack ⟨.HEX, .str hexRed⟩ 50).1
      = ⟨.RGBA, .rgba ⟨255, 0, 0, 1/2⟩⟩ := by
    norm_num +decide [handleAlphaSliderChange, convertColor, colorObjOf, tinyFromValue,
      tinyFromHexString, stripSharp, isHexDigit, hexVal, toRgbObj, jroundQ, jroundZ, hexRed,
      hexBlack, bound01, boundAlpha, qmin, qmax]
  have hR : (handleInputRgbaRedInput ⟨.RGBA, .rgba ⟨1, 2, 3, 1⟩⟩ (some 9)).1
      = ⟨.RGBA, .rgba ⟨9, 2, 3, 1⟩⟩ := by
    norm_num [handleInputRgbaRedInput]
  refine ⟨by rw [hA]; simp, hA, hR, by simp⟩

/-- C6 (amended): the alpha-slider and RGBA red-input handlers mutate the
stored current color rather than leaving it unchanged — after either handler
the stored color is the very color that is emitted; the alpha handler switches
the stored format to RGBA when it was different, and the red-input handler
overwrites r on the stored rgba value. -/
theorem C6_amended :
    (∀ (lvc : List Char) (st : Color) (alpha : ℚ),
        (handleAlphaSliderChange lvc st alpha).1 = (handleAlphaSliderChange lvc st alpha).2)
    ∧ (∀ (st : Color) (v : Option ℚ),
        (handleInputRgbaRedInput st v).1 = (handleInputRgbaRedInput st v).2)
    ∧ (∀ (lvc : List Char) (st : Color) (alpha : ℚ), st.format ≠ .RGBA →
        (handleAlphaSliderChange lvc st alpha).1.format = .RGBA)
    ∧ (∀ (st : Color) (v : Option ℚ) (o : RgbaObj), st.value = .rgba o →
        (handleInputRgbaRedInput st v).1.value = .rgba { o with r := v.getD 0 }) := by
  refine ⟨fun lvc st alpha => rfl, fun st v => rfl, ?_, ?_⟩
  · intro lvc st alpha h
    simp [handleAlphaSliderChange, h]
  · intro st v o h
    simp [handleInputRgbaRedInput, h]

theorem C6_witness :
    (handleAlphaSliderChange hexBlack ⟨.HEX, .str hexRed⟩ 25).1.format = .RGBA :=
  C6_amended.2.2.1 hexBlack ⟨.HEX, .str hexRed⟩ 25 (by decide)

/-- C5 counterexample: for the color #ff8080 the converter's saturation
fraction is 127/255 (49.8039...%); rounding to the nearest 1/100 of a percent
would give 49.80, but getHsv returns 50 — the /100 and ×100 around
Math.round cancel, so s is rounded to a whole percent, not to two decimal
places of a percent. -/
theorem C5_counterexample :
    (rgbToHsv (colorObjOf hexBlack .HEX (.str hexPink))).s = 127/255
    ∧ (getHsv none hexBlack ⟨.HEX, .str hexPink⟩).s = 50
    ∧ specRoundPercent (127/255) = 249/5
    ∧ (getHsv none hexBlack ⟨.HEX, .str hexPink⟩).s ≠ specRoundPercent (127/255) := by
  have h1 : (rgbToHsv (colorObjOf hexBlack .HEX (.str hexPink))).s = 127/255 := by
    norm_num +decide [rgbToHsv, colorObjOf, tinyFromValue, tinyFromHexString, stripSharp,
      isHexDigit, hexVal, hexPink, hexBlack, bound01, isHex, qmin, qmax]
  have h2 : (getHsv none hexBlack ⟨.HEX, .str hexPink⟩).s = 50 := by
    norm_num +decide [getHsv, convertColor, rgbToHsv, colorObjOf, tinyFromValue,
      tinyFromHexString, stripSharp, isHexDigit, hexVal, hexPink, hexBlack, bound01, isHex,
      qmin, qmax, jroundQ, jroundZ]
  have h3 : specRoundPercent (127/255) = 249/5 := by
    norm_num [specRoundPercent]
  exact ⟨h1, h2, h3, by rw [h2, h3]; norm_num⟩

/-- C5 (amended): without a host-supplied override, getHsv returns h rounded
to the nearest integer degree and s, v rounded to the nearest whole percent of
the converter's 0..1 fractions (the division and multiplication by 100 cancel,
so s and v are always integer-valued on the 0..100 scale). -/
theorem C5_amended (lvc : List Char) (c : Color) :
    getHsv none lvc c =
      ⟨jroundQ (rgbToHsv (colorObjOf lvc c.format c.value)).h,
       jroundQ ((rgbToHsv (colorObjOf lvc c.format c.value)).s * 100),
       jroundQ ((rgbToHsv (colorObjOf lvc c.format c.value)).v * 100)⟩
    ∧ (∃ n : ℤ, (getHsv none lvc c).s = (n : ℚ))
    ∧ (∃ n : ℤ, (getHsv none lvc c).v = (n : ℚ)) := by
  have h1 : getHsv none lvc c =
      ⟨jroundQ (rgbToHsv (colorObjOf lvc c.format c.value)).h,
       jroundQ ((rgbToHsv (colorObjOf lvc c.format c.value)).s * 100),
       jroundQ ((rgbToHsv (colorObjOf lvc c.format c.value)).v * 100)⟩ := by
    show (⟨jroundQ (rgbToHsv (colorObjOf lvc c.format c.value)).h,
       jroundQ ((rgbToHsv (colorObjOf lvc c.format c.value)).s * 100) / 100 * 100,
       jroundQ ((rgbToHsv (colorObjOf lvc c.format c.value)).v * 100) / 100 * 100⟩ : Hsv) = _
    rw [div_mul_cancel₀ _ (by norm_num : (100 : ℚ) ≠ 0),
        div_mul_cancel₀ _ (by norm_num : (100 : ℚ) ≠ 0)]
  refine ⟨h1, ⟨jroundZ ((rgbToHsv (colorObjOf lvc c.format c.value)).s * 100), ?_⟩,
          ⟨jroundZ ((rgbToHsv (colorObjOf lvc c.format c.value)).v * 100), ?_⟩⟩ <;>
    · rw [h1]
      rfl

theorem mem_stripSharp {c : Char} {s : List Char} (hc : c ≠ '#') (h : c ∈ s) :
    c ∈ stripSharp s := by
  cases s with
  | nil => cases h
  | cons a t =>
    by_cases ha : a = '#'
    · subst ha
      simp only [stripSharp, if_pos rfl]
      rcases List.mem_cons.1 h with h1 | h1
      · exact absurd h1 hc
      · exact h1
    · simpa [stripSharp, ha] using h

theorem all_false_of_space {l : List Char} (hl : ' ' ∈ l) : l.all isHexDigit = false := by
  rw [Bool.eq_false_iff]
  intro hall
  rw [List.all_eq_true] at hall
  exact absurd (hall ' ' hl) (by decide)

theorem replaceFullWidthSpace_eq_self {s : List Char} (h : '　' ∉ s) :
    replaceFullWidthSpace s = s := by
  induction s with
  | nil => rfl
  | cons a t ih =>
    have ha : a ≠ '　' := fun hh => h (hh ▸ List.mem_cons_self a t)
    have ht : '　' ∉ t := fun hh => h (List.mem_cons_of_mem a hh)
    simp [replaceFullWidthSpace, ha] at ih ⊢
    exact ih ht

theorem not_fullwidth_of_isHex {s : List Char} (h : isHex s = true) : '　' ∉ s := by
  intro hmem
  have h1 : '　' ∈ stripSharp s := mem_stripSharp (by decide) hmem
  simp only [isHex, Bool.and_eq_true, List.all_eq_true] at h
  exact absurd (h.2 '　' h1) (by decide)

theorem stripSharp_concatenatePoundKey (s : List Char) :
    stripSharp (concatenatePoundKey s) = stripSharp s := by
  cases s with
  | nil => rfl
  | cons c r =>
    by_cases hc : c = '#' <;> simp [concatenatePoundKey, stripSharp, hc]

theorem isTypingHex_concatenatePoundKey {s : List Char} (h : isHex s = true) :
    isTypingHex (concatenatePoundKey s) = true := by
  simp only [isHex, Bool.and_eq_true, Bool.or_eq_true, decide_eq_true_eq] at h
  simp only [isTypingHex, stripSharp_concatenatePoundKey, Bool.and_eq_true, decide_eq_true_eq]
  refine ⟨?_, h.2⟩
  rcases h.1 with h1 | h1 <;> omega

/-- C8 counterexample: the input consisting of a single full-width space.  The
claim says full-width spaces are stripped, so the result would be the empty
pass-through string; the code instead replaces the full-width space by an
ASCII space, which fails the typing-hex pattern, so the edit is discarded and
the previous value returned. -/
theorem C8_counterexample :
    normalizeHexValue hexSample ['　'] = hexSample ∧ hexSample ≠ ([] : List Char) := by
  constructor
  · decide
  · decide

/-- C8 (amended): normalizeTypedHex replaces full-width spaces by ordinary
spaces rather than stripping them — any input containing one is rejected back
to the previous value; an empty input passes through as empty; an input
matching the committed hex pattern is returned with a # prefixed when absent;
and an input that (after the space replacement) fails both patterns yields the
previous value unchanged. -/
theorem C8_amended :
    (∀ (prev s : List Char), '　' ∈ s → normalizeHexValue prev s = prev)
    ∧ (∀ prev : List Char, normalizeHexValue prev [] = [])
    ∧ (∀ (prev s : List Char), isHex s = true →
        normalizeHexValue prev s = concatenatePoundKey s)
    ∧ (∀ (prev s : List Char), isHex (replaceFullWidthSpace s) = false →
        isTypingHex (replaceFullWidthSpace s) = false →
        normalizeHexValue prev s = prev) := by
  refine ⟨?_, ?_, ?_, ?_⟩
  · intro prev s hs
    have h1 : ' ' ∈ replaceFullWidthSpace s := by
      simp only [replaceFullWidthSpace, List.mem_map]
      exact ⟨'　', hs, by decide⟩
    have h2 : ' ' ∈ stripSharp (replaceFullWidthSpace s) := mem_stripSharp (by decide) h1
    have h3 : (stripSharp (replaceFullWidthSpace s)).all isHexDigit = false :=
      all_false_of_space h2
    have h4 : isHex (replaceFullWidthSpace s) = false := by
      simp [isHex, h3]
    have h5 : isTypingHex (replaceFullWidthSpace s) = false := by
      simp [isTypingHex, h3]
    simp [normalizeHexValue, h4, h5]
  · intro prev
    rfl
  · intro prev s hs
    have hrep : replaceFullWidthSpace s = s :=
      replaceFullWidthSpace_eq_self (not_fullwidth_of_isHex hs)
    simp [normalizeHexValue, hrep, hs, isTypingHex_concatenatePoundKey hs]
  · intro prev s h1 h2
    simp [normalizeHexValue, h1, h2]

theorem C8_witness :
    normalizeHexValue hexBlack ['f', 'f', 'f'] = ['#', 'f', 'f', 'f'] := by
  have h := C8_amended.2.2.1 hexBlack ['f', 'f', 'f'] (by decide)
  rw [h]
  decide

/-- C2: whenever the current format is one of the priority order [HEX, RGBA]
and is selectable, the format-cycling handler terminates (two loop iterations
always suffice); and with selectableFormats = HEX only, starting from HEX, it
emits a HEX color whose value is the Converter's translation of the current
value. -/
theorem C2_theorem :
    (∀ (lvc : List Char) (sel : SelectableColorCode) (cur : Color),
        (cur.format = .HEX ∨ cur.format = .RGBA) → sel.get cur.format = true →
        ∃ c, handleColorChangeButtonTap 2 lvc sel cur = some c)
    ∧ (∀ (lvc : List Char) (val : ColorValue),
        handleColorChangeButtonTap 2 lvc ⟨true, false, false⟩ ⟨.HEX, val⟩
          = some ⟨.HEX, convertColor lvc .HEX val .HEX⟩) := by
  constructor
  · rintro lvc ⟨bh, br, bhsv⟩ ⟨f, v⟩ hf hs
    rcases hf with h | h <;> subst h <;>
      simp only [SelectableColorCode.get] at hs <;> subst hs
    · cases br
      · exact ⟨_, rfl⟩
      · exact ⟨_, rfl⟩
    · cases bh
      · exact ⟨_, rfl⟩
      · exact ⟨_, rfl⟩
  · intro lvc val
    rfl

theorem C2_witness :
    (∃ c, handleColorChangeButtonTap 2 hexBlack ⟨true, false, false⟩ ⟨.HEX, .str hexRed⟩
        = some c)
    ∧ handleColorChangeButtonTap 2 hexBlack ⟨true, false, false⟩ ⟨.HEX, .str hexRed⟩
        = some ⟨.HEX, convertColor hexBlack .HEX (.str hexRed) .HEX⟩ :=
  ⟨C2_theorem.1 hexBlack ⟨true, false, false⟩ ⟨.HEX, .str hexRed⟩ (Or.inl rfl) (by decide),
   C2_theorem.2 hexBlack (.str hexRed)⟩

theorem jroundZ_nonneg {x : ℚ} (h : 0 ≤ x) : 0 ≤ jroundZ x := by
  rw [jroundZ]
  exact Int.le_floor.2 (by push_cast; linarith)

theorem jroundQ_nonneg {x : ℚ} (h : 0 ≤ x) : 0 ≤ jroundQ x := by
  rw [jroundQ]
  exact_mod_cast jroundZ_nonneg h

theorem jroundQ_neg {x : ℚ} (h : x < 0) : jroundQ x ≤ 0 := by
  have h1 : jroundZ x < 1 := by
    rw [jroundZ]
    exact Int.floor_lt.2 (by push_cast; linarith)
  rw [jroundQ]
  exact_mod_cast Int.lt_add_one_iff.1 h1

theorem jroundQ_zero : jroundQ 0 = 0 := by
  norm_num [jroundQ, jroundZ]

theorem jroundQ_le_100 {x : ℚ} (h : x ≤ 100) : jroundQ x ≤ 100 := by
  have h1 : jroundZ x < 101 := by
    rw [jroundZ]
    exact Int.floor_lt.2 (by push_cast; linarith)
  rw [jroundQ]
  exact_mod_cast Int.lt_add_one_iff.1 h1

/-- C3 counterexample: a pointer exactly at the top edge of the spectrum
(pointer y equal to rect.top) gives effective y = 0, not 0.1 — the source only
replaces strictly negative offsets by 0.1 — so the effective vertical offset
is not clamped to [0.1, height] and the claimed raising of y = 0 does not
happen. -/
theorem C3_counterexample :
    effectiveY 0 0 100 = 0
    ∧ (0 : ℚ) < 1/10
    ∧ getColorObject 0 0 0 ⟨0, 0, 200, 100⟩ = ⟨0, 0, 100⟩ := by
  refine ⟨?_, by norm_num, ?_⟩
  · norm_num [effectiveY, jroundQ, jroundZ]
  · norm_num [getColorObject, effectiveX, effectiveY, jroundQ, jroundZ, Hsv.mk.injEq]

/-- C3 (amended): the vertical clamp of getColorObject keeps the effective y
nonnegative and bounded by rect.height except for the 0.1 case: a rounded
offset strictly below -1/2 (hence negative after rounding) becomes 0.1, while
a pointer exactly at the top edge keeps effective y = 0. -/
theorem C3_amended (tY top h : ℚ) (hh : 0 ≤ h) :
    0 ≤ effectiveY tY top h
    ∧ (tY - top < -(1/2) → effectiveY tY top h = 1/10)
    ∧ (tY - top = 0 → effectiveY tY top h = 0)
    ∧ (effectiveY tY top h ≤ h ∨ effectiveY tY top h = 1/10) := by
  refine ⟨?_, ?_, ?_, ?_⟩
  · simp only [effectiveY]
    split_ifs <;> linarith
  · intro hlt
    have hy : jroundQ (tY - top) < 0 := by
      have h1 : jroundZ (tY - top) < 0 := by
        rw [jroundZ]
        exact_mod_cast Int.floor_lt.2 (by push_cast; linarith)
      rw [jroundQ]
      exact_mod_cast h1
    simp only [effectiveY]
    split_ifs <;> first | rfl | linarith
  · intro h0
    simp only [effectiveY, h0, jroundQ_zero]
    split_ifs <;> first | rfl | linarith
  · simp only [effectiveY]
    split_ifs <;> first | (left; linarith) | (right; rfl)

theorem C3_witness :
    0 ≤ effectiveY 5 0 100
    ∧ ((5 : ℚ) - 0 < -(1/2) → effectiveY 5 0 100 = 1/10)
    ∧ ((5 : ℚ) - 0 = 0 → effectiveY 5 0 100 = 0)
    ∧ (effectiveY 5 0 100 ≤ 100 ∨ effectiveY 5 0 100 = 1/10) :=
  C3_amended 5 0 100 (by norm_num)

theorem qmax_self (a : ℚ) : qmax a a = a := by
  simp [qmax]

theorem qmin_self (a : ℚ) : qmin a a = a := by
  simp [qmin]

theorem boundPercent_zero : boundPercent 0 100 = 0 := by
  norm_num [boundPercent, qmin, qmax]

theorem hsvSelect_diag (md : Nat) (x : ℚ) : hsvSelect md x x x x = (x, x, x) := by
  rcases md with _ | _ | _ | _ | _ | md <;> rfl

theorem hsvToRgb_grey (h v : ℚ) :
    (hsvToRgb h 0 v).r = (hsvToRgb h 0 v).g ∧ (hsvToRgb h 0 v).g = (hsvToRgb h 0 v).b := by
  simp only [hsvToRgb, boundPercent_zero, mul_zero, zero_mul, sub_zero, mul_one, hsvSelect_diag]
  constructor <;> trivial

theorem rgbToHsv_grey (t : TColor) (h1 : t.r = t.g) (h2 : t.g = t.b) :
    (rgbToHsv t).s = 0 := by
  simp only [rgbToHsv, h1, h2, qmax_self, qmin_self]
  split_ifs <;> simp

theorem isHexDigit_hexDigitChar (n : Nat) : isHexDigit (hexDigitChar n) = true := by
  rcases n with _ | _ | _ | _ | _ | _ | _ | _ | _ | _ | _ | _ | _ | _ | _ | n <;> rfl

theorem isHex_toHexString (t : TColor) : isHex (toHexString t) = true := by
  simp [isHex, toHexString, stripSharp, byteToHex, isHexDigit_hexDigitChar]

theorem tinyFromHexString_grey (t : TColor) (h1 : t.r = t.g) (h2 : t.g = t.b) :
    (tinyFromHexString (toHexString t)).r = (tinyFromHexString (toHexString t)).g
    ∧ (tinyFromHexString (toHexString t)).g = (tinyFromHexString (toHexString t)).b := by
  simp only [toHexString, h1, h2]
  simp only [tinyFromHexString, byteToHex, stripSharp, if_pos rfl]
  split_ifs <;> exact ⟨rfl, rfl⟩

theorem isMonochrome_grey (lvc : List Char) (fmt : Format) (h v : ℚ) :
    isMonochrome lvc fmt (convertColor lvc .HSV (.hsv h 0 v) fmt) = true := by
  have hg := hsvToRgb_grey h v
  cases fmt with
  | HEX =>
    have hhex : convertColor lvc .HSV (.hsv h 0 v) .HEX
        = .str (toHexString (hsvToRgb h 0 v)) := rfl
    rw [hhex]
    have hparse := tinyFromHexString_grey (hsvToRgb h 0 v) hg.1 hg.2
    simp only [isMonochrome, convertColor, colorObjOf, isHex_toHexString, if_pos]
    rw [rgbToHsv_grey _ hparse.1 hparse.2]
    decide
  | RGBA =>
    have hrgba : convertColor lvc .HSV (.hsv h 0 v) .RGBA
        = .rgba (toRgbObj (hsvToRgb h 0 v)) := rfl
    rw [hrgba]
    have hr : (tinyFromValue (.rgba (toRgbObj (hsvToRgb h 0 v)))).r
        = (tinyFromValue (.rgba (toRgbObj (hsvToRgb h 0 v)))).g := by
      simp only [tinyFromValue, toRgbObj, hg.1, hg.2]
    have hg2 : (tinyFromValue (.rgba (toRgbObj (hsvToRgb h 0 v)))).g
        = (tinyFromValue (.rgba (toRgbObj (hsvToRgb h 0 v)))).b := by
      simp only [tinyFromValue, toRgbObj, hg.1, hg.2]
    simp only [isMonochrome, convertColor, colorObjOf]
    rw [rgbToHsv_grey _ hr hg2]
    decide
  | HSV =>
    have hs0 : (rgbToHsv (hsvToRgb h 0 v)).s = 0 := rgbToHsv_grey _ hg.1 hg.2
    have hhsv : convertColor lvc .HSV (.hsv h 0 v) .HSV
        = .hsv (rgbToHsv (hsvToRgb h 0 v)).h (rgbToHsv (hsvToRgb h 0 v)).s
               (rgbToHsv (hsvToRgb h 0 v)).v := rfl
    rw [hhsv, hs0]
    have hg3 := hsvToRgb_grey (rgbToHsv (hsvToRgb h 0 v)).h (rgbToHsv (hsvToRgb h 0 v)).v
    simp only [isMonochrome, convertColor, colorObjOf]
    rw [rgbToHsv_grey _ hg3.1 hg3.2]
    decide

theorem intToNatZero : (0 : ℤ).toNat = 0 := rfl

theorem intToNatTwo : (2 : ℤ).toNat = 2 := rfl

theorem intToNat255 : (255 : ℤ).toNat = 255 := rfl

set_option maxHeartbeats 1000000 in
/-- C4 counterexample: a hue-slider change on #ff0000 with hue 120 produces
the chromatic color #00ff00 (its converted saturation is nonzero, so
isMonochrome is false), yet latestValidHue keeps its prior value 0 instead of
being updated to the new hue — the hue-slider handler never writes
latestValidHue. -/
theorem C4_counterexample :
    (handleHueSliderChange hexBlack ⟨.HEX, .str hexRed⟩ 0 120).1 = 0
    ∧ isMonochrome hexBlack .HEX
        ((handleHueSliderChange hexBlack ⟨.HEX, .str hexRed⟩ 0 120).2.1.value) = false
    ∧ (handleHueSliderChange hexBlack ⟨.HEX, .str hexRed⟩ 0 120).2.2.h = 120
    ∧ (0 : ℚ) ≠ 120 := by
  have e1 : convertColor hexBlack .HEX (.str hexRed) .HSV = .hsv 0 1 1 := by
    norm_num +decide [convertColor, colorObjOf, tinyFromHexString, stripSharp, isHexDigit,
      hexVal, isHex, hexRed, rgbToHsv, bound01, qmin, qmax]
  have e3 : convertColor hexBlack .HSV (.hsv 120 100 100) .HEX = .str hexGreen := by
    norm_num +decide [convertColor, colorObjOf, hsvToRgb, boundPercent, bound01, qmin, qmax,
      hsvSelect, toHexString, byteToHex, hexDigitChar, jroundZ, hexGreen, intToNatZero,
      intToNatTwo, intToNat255]
  have hj : jroundQ (1 * 100) = 100 := by
    norm_num [jroundQ, jroundZ]
  have e2 : handleHueSliderChange hexBlack ⟨.HEX, .str hexRed⟩ 0 120
      = (0, ⟨.HEX, .str hexGreen⟩, ⟨120, 100, 100⟩) := by
    simp only [handleHueSliderChange, e1, hj]
    rw [e3]
  have e4 : isMonochrome hexBlack .HEX (.str hexGreen) = false := by
    norm_num +decide [isMonochrome, convertColor, colorObjOf, tinyFromHexString, stripSharp,
      isHexDigit, hexVal, isHex, hexGreen, rgbToHsv, bound01, qmin, qmax]
  refine ⟨by rw [e2], ?_, by rw [e2], by norm_num⟩
  rw [e2]
  exact e4

/-- C4 (amended): only the pointer handlers maintain latestValidHue — it is
left unchanged by every hue-slider change and by an inactive or achromatic
pointer move (computed saturation 0 always yields a monochrome converted
color), and it is set to the computed hue exactly when the converted pointer
color is not monochrome. -/
theorem C4_amended :
    (∀ (lvc : List Char) (st : Color) (hv hue : ℚ),
        (handleHueSliderChange lvc st hv hue).1 = hv)
    ∧ (∀ (lvc : List Char) (st : Color) (hv : ℚ) (o : Option Hsv) (pX pY : ℚ) (r : Rect),
        (handleCatcherMouseMove lvc st hv false o pX pY r).1 = hv)
    ∧ (∀ (lvc : List Char) (st : Color) (hv : ℚ) (o : Option Hsv) (pX pY : ℚ) (r : Rect),
        (getColorObject (getHsv o lvc st).h pX pY r).s = 0 →
        (handleCatcherMouseMove lvc st hv true o pX pY r).1 = hv)
    ∧ (∀ (lvc : List Char) (st : Color) (hv : ℚ) (o : Option Hsv) (pX pY : ℚ) (r : Rect),
        isMonochrome lvc st.format
          (convertColor lvc .HSV
            (.hsv (getColorObject (getHsv o lvc st).h pX pY r).h
                  (getColorObject (getHsv o lvc st).h pX pY r).s
                  (getColorObject (getHsv o lvc st).h pX pY r).v) st.format) = false →
        (handleCatcherMouseMove lvc st hv true o pX pY r).1
          = (getColorObject (getHsv o lvc st).h pX pY r).h) := by
  refine ⟨fun lvc st hv hue => rfl, fun lvc st hv o pX pY r => rfl, ?_, ?_⟩
  · intro lvc st hv o pX pY r hs
    have hmono : isMonochrome lvc st.format
        (convertColor lvc .HSV
          (.hsv (getColorObject (getHsv o lvc st).h pX pY r).h
                (getColorObject (getHsv o lvc st).h pX pY r).s
                (getColorObject (getHsv o lvc st).h pX pY r).v) st.format) = true := by
      rw [hs]
      exact isMonochrome_grey lvc st.format _ _
    show (if isMonochrome lvc st.format
          (convertColor lvc .HSV
            (.hsv (getColorObject (getHsv o lvc st).h pX pY r).h
                  (getColorObject (getHsv o lvc st).h pX pY r).s
                  (getColorObject (getHsv o lvc st).h pX pY r).v) st.format) = true then hv
        else (getColorObject (getHsv o lvc st).h pX pY r).h) = hv
    rw [if_pos hmono]
  · intro lvc st hv o pX pY r hmono
    show (if isMonochrome lvc st.format
          (convertColor lvc .HSV
            (.hsv (getColorObject (getHsv o lvc st).h pX pY r).h
                  (getColorObject (getHsv o lvc st).h pX pY r).s
                  (getColorObject (getHsv o lvc st).h pX pY r).v) st.format) = true then hv
        else (getColorObject (getHsv o lvc st).h pX pY r).h)
      = (getColorObject (getHsv o lvc st).h pX pY r).h
    rw [if_neg (by rw [hmono]; exact Bool.false_ne_true)]

theorem C4_witness :
    (handleCatcherMouseMove hexBlack ⟨.HEX, .str hexRed⟩ 42 true none 0 50
        ⟨0, 0, 200, 100⟩).1 = 42 :=
  C4_amended.2.2.1 hexBlack ⟨.HEX, .str hexRed⟩ 42 none 0 50 ⟨0, 0, 200, 100⟩
    (by norm_num [getColorObject, effectiveX, jroundQ, jroundZ])

theorem effectiveX_mem (tX left width : ℚ) (hw : 0 ≤ width) :
    0 ≤ effectiveX tX left width ∧ effectiveX tX left width ≤ width := by
  simp only [effectiveX]
  split_ifs <;> constructor <;> linarith

theorem effectiveY_mem (tY top height : ℚ) (hh : 0 ≤ height) (hoff : 0 ≤ tY - top) :
    0 ≤ effectiveY tY top height ∧ effectiveY tY top height ≤ height := by
  have h0 : 0 ≤ jroundQ (tY - top) := jroundQ_nonneg hoff
  simp only [effectiveY]
  split_ifs <;> constructor <;> linarith

theorem floor_add_half_intCast (n : ℤ) : ⌊(n : ℚ) + 1/2⌋ = n := by
  rw [Int.floor_eq_iff]
  constructor <;> linarith

/-- C9 counterexample: with the fractional rect width 52/5 = 10.4, a pointer
offset of 10.5 (beyond the right edge) is rounded to 11 and clamped to 10.4,
giving saturation 100; the boundary offset 10.4 itself rounds down to 10,
giving saturation 96 — so a pointer beyond the right edge is not identical to
the clamped boundary pointer. -/
theorem C9_counterexample :
    (getColorObject 0 (21/2) 50 ⟨0, 0, 52/5, 100⟩).s = 100
    ∧ (getColorObject 0 (52/5) 50 ⟨0, 0, 52/5, 100⟩).s = 96
    ∧ (52 : ℚ)/5 < 21/2
    ∧ getColorObject 0 (21/2) 50 ⟨0, 0, 52/5, 100⟩
        ≠ getColorObject 0 (52/5) 50 ⟨0, 0, 52/5, 100⟩ := by
  have h1 : (getColorObject 0 (21/2) 50 ⟨0, 0, 52/5, 100⟩).s = 100 := by
    norm_num [getColorObject, effectiveX, jroundQ, jroundZ]
  have h2 : (getColorObject 0 (52/5) 50 ⟨0, 0, 52/5, 100⟩).s = 96 := by
    norm_num [getColorObject, effectiveX, jroundQ, jroundZ]
  refine ⟨h1, h2, by norm_num, fun he => ?_⟩
  rw [he, h2] at h1
  norm_num at h1

/-- C9 (amended): for a positive rect and a vertical offset inside
[0, height], pointerToColor returns s and v in [0, 100] (for every horizontal
pointer position, clamped); a pointer left of the left edge gives the same
color as one exactly on it; and a pointer beyond the right edge gives the
same color as one exactly on it provided rect.width is an integer — with a
fractional width the pre-clamp Math.round can separate the two. -/
theorem C9_theorem :
    (∀ (hh tX tY : ℚ) (r : Rect), 0 < r.width → 0 < r.height →
        0 ≤ tY - r.top → tY - r.top ≤ r.height →
        0 ≤ (getColorObject hh tX tY r).s ∧ (getColorObject hh tX tY r).s ≤ 100
        ∧ 0 ≤ (getColorObject hh tX tY r).v ∧ (getColorObject hh tX tY r).v ≤ 100)
    ∧ (∀ (hh tX tY : ℚ) (r : Rect), 0 ≤ r.width → tX - r.left < 0 →
        getColorObject hh tX tY r = getColorObject hh r.left tY r)
    ∧ (∀ (hh tX tY : ℚ) (r : Rect) (n : ℤ), r.width = (n : ℚ) → 0 ≤ r.width →
        r.width < tX - r.left →
        getColorObject hh tX tY r = getColorObject hh (r.left + r.width) tY r) := by
  refine ⟨?_, ?_, ?_⟩
  · intro hh tX tY r hw hht hy0 hy1
    obtain ⟨hx0, hx1⟩ := effectiveX_mem tX r.left r.width (le_of_lt hw)
    obtain ⟨hy0e, hy1e⟩ := effectiveY_mem tY r.top r.height (le_of_lt hht) hy0
    have hs0 : 0 ≤ effectiveX tX r.left r.width / r.width * 100 :=
      mul_nonneg (div_nonneg hx0 (le_of_lt hw)) (by norm_num)
    have hs1 : effectiveX tX r.left r.width / r.width * 100 ≤ 100 := by
      have h := (div_le_one hw).2 hx1
      linarith
    have hv0 : 0 ≤ effectiveY tY r.top r.height / r.height * 100 :=
      mul_nonneg (div_nonneg hy0e (le_of_lt hht)) (by norm_num)
    have hv1 : effectiveY tY r.top r.height / r.height * 100 ≤ 100 := by
      have h := (div_le_one hht).2 hy1e
      linarith
    have hjv0 := jroundQ_nonneg hv0
    have hjv1 := jroundQ_le_100 hv1
    simp only [getColorObject]
    exact ⟨jroundQ_nonneg hs0, jroundQ_le_100 hs1, by linarith, by linarith⟩
  · intro hh tX tY r hw hneg
    have h1 : jroundQ (tX - r.left) ≤ 0 := jroundQ_neg hneg
    have h2 : jroundQ (r.left - r.left) = 0 := by
      rw [sub_self]
      exact jroundQ_zero
    have hx : effectiveX tX r.left r.width = effectiveX r.left r.left r.width := by
      simp only [effectiveX, h2]
      split_ifs <;> linarith
    simp only [getColorObject, hx]
  · intro hh tX tY r n hn hw hgt
    have hjw : jroundQ r.width = r.width := by
      rw [hn, jroundQ, jroundZ, floor_add_half_intCast]
    have hge : r.width ≤ jroundQ (tX - r.left) := by
      have hmono : ⌊r.width + 1/2⌋ ≤ ⌊tX - r.left + 1/2⌋ :=
        Int.floor_le_floor (by linarith)
      rw [hn, floor_add_half_intCast] at hmono
      rw [jroundQ, jroundZ, hn]
      exact_mod_cast hmono
    have hb : jroundQ (r.left + r.width - r.left) = r.width := by
      rw [show r.left + r.width - r.left = r.width by ring, hjw]
    have hx1 : effectiveX tX r.left r.width = r.width := by
      simp only [effectiveX]
      split_ifs <;> linarith
    have hx2 : effectiveX (r.left + r.width) r.left r.width = r.width := by
      simp only [effectiveX, hb]
      split_ifs <;> linarith
    simp only [getColorObject, hx1, hx2]

theorem C9_witness :
    (0 ≤ (getColorObject 0 50 50 ⟨0, 0, 200, 100⟩).s
      ∧ (getColorObject 0 50 50 ⟨0, 0, 200, 100⟩).s ≤ 100
      ∧ 0 ≤ (getColorObject 0 50 50 ⟨0, 0, 200, 100⟩).v
      ∧ (getColorObject 0 50 50 ⟨0, 0, 200, 100⟩).v ≤ 100)
    ∧ getColorObject 0 (-3) 50 ⟨0, 0, 200, 100⟩ = getColorObject 0 0 50 ⟨0, 0, 200, 100⟩ :=
  ⟨C9_theorem.1 0 50 50 ⟨0, 0, 200, 100⟩ (by norm_num) (by norm_num) (by norm_num)
      (by norm_num),
   C9_theorem.2.1 0 (-3) 50 ⟨0, 0, 200, 100⟩ (by norm_num) (by norm_num)⟩

end Viron
